import Mathlib

/-!
Shallow embedding of scripts/analyze-notion-data.js.

JavaScript values are modelled by the inductive JVal below.  JS numbers are
modelled by Int: every claim in scope is independent of fractional values,
and date strings handed to new Date are modelled as integer epoch
timestamps (new Date(n) has timestamp n in JS), so that date comparison is
integer comparison.

Property access o.k on null or undefined throws a TypeError in JS, so the
accessors are functions into Except String JVal, with the error string
naming the JS error class.  Optional chaining o?.k short-circuits to
undefined instead.
-/

namespace StoreLocator

/-- Model of a JavaScript value (JSON plus undefined).  Arrays and objects
are encoded as cons spines inside the one inductive so that every recursion
over values is structural; the smart constructors JVal.arr and JVal.obj
build them from ordinary lists. -/
inductive JVal where
  | null
  | undef
  | bool (b : Bool)
  | num (n : Int)
  | str (s : String)
  | arrNil
  | arrCons (head tail : JVal)
  | objNil
  | objCons (key : String) (val tail : JVal)
deriving Repr, DecidableEq

/-- Array value from a list of element values. -/
def JVal.arr (elems : List JVal) : JVal :=
  elems.foldr .arrCons .arrNil

/-- Object value from an association list of fields. -/
def JVal.obj (fields : List (String × JVal)) : JVal :=
  fields.foldr (fun kv t => .objCons kv.1 kv.2 t) .objNil

/-- First field of the object spine with the given key, as JS property
lookup on an object literal without duplicate keys. -/
def JVal.lookupField : JVal → String → Option JVal
  | .objCons key val tail, k =>
      if key == k then some val else tail.lookupField k
  | _, _ => none

/-- Elements of a well-formed array spine, none on any other value; used to
model the Array.isArray test. -/
def JVal.asList : JVal → Option (List JVal)
  | .arrNil => some []
  | .arrCons h t => (JVal.asList t).map (fun l => h :: l)
  | _ => none

/-- Plain property access v[k]: throws TypeError on null and undefined,
yields undefined for a missing key and for any key on a primitive. -/
def JVal.get (v : JVal) (k : String) : Except String JVal :=
  match v with
  | .null => .error "TypeError"
  | .undef => .error "TypeError"
  | w => .ok ((w.lookupField k).getD .undef)

/-- Optional-chaining access v?.k: null and undefined short-circuit to
undefined instead of throwing. -/
def JVal.getOpt (v : JVal) (k : String) : Except String JVal :=
  match v with
  | .null => .ok .undef
  | .undef => .ok .undef
  | _ => v.get k

/-- JS truthiness of a value; every array and object is truthy. -/
def JVal.truthy : JVal → Bool
  | .null => false
  | .undef => false
  | .bool b => b
  | .num n => n != 0
  | .str s => s != ""
  | _ => true

/-- Whether the value is a JS number (typeof v === "number"). -/
def JVal.isNum : JVal → Bool
  | .num _ => true
  | _ => false

/-- Strict equality of a value with a string literal (v === "s").  A string
compares by contents; any non-string value compares unequal. -/
def JVal.isStr (v : JVal) (s : String) : Bool :=
  match v with
  | .str t => t == s
  | _ => false

/-- Element conversion used by Array.prototype.join: null and undefined
become the empty string, other values their JS string conversion; an array
element stringifies as its own elements joined with commas. -/
def JVal.joinStr : JVal → String
  | .null => ""
  | .undef => ""
  | .bool b => cond b "true" "false"
  | .num n => toString n
  | .str s => s
  | .objNil => "[object Object]"
  | .objCons _ _ _ => "[object Object]"
  | .arrNil => ""
  | .arrCons h t =>
      h.joinStr ++ (match t with
        | .arrNil => ""
        | _ => "," ++ t.joinStr)

/-- JS string conversion String(v), as used by template literals.  It
differs from joinStr only on null and undefined. -/
def JVal.jsToString : JVal → String
  | .null => "null"
  | .undef => "undefined"
  | v => v.joinStr

/-- Filter configuration: VALID_ACCOUNT_STATUSES. -/
def VALID_ACCOUNT_STATUSES : List String := ["Customer", "Customer Overdue"]

/-- Product column mapping (Notion property name, display name), in the
iteration order of the source object literal. -/
def PRODUCT_COLUMNS : List (String × String) :=
  [("State of Mind 1G Customer", "State of Mind"),
   ("O-Yeah 1G Customer", "O-Yeah"),
   ("SUSHI Hash 1G Customer", "Sushi Hash"),
   ("SMACK 1G", "SMACK"),
   ("SMACK .5G", "SMACK"),
   ("ICHI- #JUAN 1G Customer", "ICHI")]

/-- Embedding of getPlainText(richTextArray): a non-array (or falsy) input
yields null; otherwise the plain_text of every element is read (throwing on
a null or undefined element), joined with the empty separator, and an empty
join result is normalized to null by the trailing or-null. -/
def getPlainText (richTextArray : JVal) : Except String JVal :=
  match richTextArray.asList with
  | some elems => do
      let texts ← elems.mapM (fun rt => rt.get "plain_text")
      let joined := String.join (texts.map JVal.joinStr)
      return (if joined != "" then .str joined else .null)
  | none => .ok .null

/-- Embedding of getTitle(properties). -/
def getTitle (properties : JVal) : Except String JVal := do
  let titleProp ← properties.get "Dispensary Name"
  if !titleProp.truthy then return .null
  else do
    let ty ← titleProp.get "type"
    if !(ty.isStr "title") then return .null
    else do
      let t ← titleProp.get "title"
      getPlainText t

/-- Embedding of getStatus(properties). -/
def getStatus (properties : JVal) : Except String JVal := do
  let statusProp ← properties.get "Account Status"
  if !statusProp.truthy then return .null
  else do
    let ty ← statusProp.get "type"
    if !(ty.isStr "status") then return .null
    else do
      let st ← statusProp.get "status"
      let nm ← st.getOpt "name"
      return (if nm.truthy then nm else .null)

/-- Embedding of getRollupDate(properties, propName).  Note the unguarded
access rollup.type on prop.rollup: when the property has type rollup but no
rollup value, the access throws. -/
def getRollupDate (properties : JVal) (propName : String) : Except String JVal := do
  let prop ← properties.get propName
  if !prop.truthy then return .null
  else do
    let ty ← prop.get "type"
    if !(ty.isStr "rollup") then return .null
    else do
      let rollup ← prop.get "rollup"
      let rty ← rollup.get "type"
      if rty.isStr "date" then do
        let d ← rollup.get "date"
        if d.truthy then do
          let s ← d.get "start"
          return (if s.truthy then s else .null)
        else
          return .null
      else
        return .null

/-- Embedding of getMapLocation(properties): yields null unless the
property is a truthy place whose lat and lon are both numbers, in which
case it yields the object with keys lat and lng. -/
def getMapLocation (properties : JVal) : Except String JVal := do
  let placeProp ← properties.get "Map Location"
  if !placeProp.truthy then return .null
  else do
    let ty ← placeProp.get "type"
    if !(ty.isStr "place") then return .null
    else do
      let place ← placeProp.get "place"
      if !place.truthy then return .null
      else do
        let lat ← place.get "lat"
        let lon ← place.get "lon"
        if !(lat.isNum && lon.isNum) then return .null
        else return .obj [("lat", lat), ("lng", lon)]

/-- Recursion of getProducts over the product columns: the accumulator is
the Set in insertion order, a display name being appended only when not
already present. -/
def productsAux (properties : JVal) :
    List (String × String) → List String → Except String (List String)
  | [], acc => .ok acc
  | (propName, displayName) :: rest, acc => do
      let date ← getRollupDate properties propName
      productsAux properties rest
        (if date.truthy then
          (if acc.contains displayName then acc else acc ++ [displayName])
         else acc)

/-- Embedding of getProducts(properties): the display names whose rollup
date is truthy, deduplicated in insertion order as by a JS Set. -/
def getProducts (properties : JVal) : Except String (List String) :=
  productsAux properties PRODUCT_COLUMNS []

/-- NormalizedStore: the record built by transformPage. -/
structure Store where
  id : JVal
  name : JVal
  address : JVal
  lat : JVal
  lng : JVal
  status : JVal
  lastOrderDate : JVal
  lastDeliveryDate : JVal
  products : List String
deriving Repr

/-- Extraction of a rich-text field as in transformPage:
getPlainText(props[key]?.rich_text). -/
def richTextOf (props : JVal) (key : String) : Except String JVal := do
  let p ← props.get key
  let rt ← p.getOpt "rich_text"
  getPlainText rt

/-- Address assembly of transformPage:
address ? (city ? template-of-both : address) : null. -/
def jsAddress (address city : JVal) : JVal :=
  if address.truthy then
    (if city.truthy then .str (address.jsToString ++ ", " ++ city.jsToString)
     else address)
  else .null

/-- Coordinate projection of transformPage: location?.lat or-else null. -/
def coordOf (location : JVal) (key : String) : Except String JVal := do
  let v ← location.getOpt key
  return (if v.truthy then v else .null)

/-- Embedding of transformPage(page). -/
def transformPage (page : JVal) : Except String Store := do
  let props ← page.get "properties"
  let name ← getTitle props
  let address ← richTextOf props "Address"
  let city ← richTextOf props "City"
  let status ← getStatus props
  let lastOrderDate ← getRollupDate props "Last Order Date"
  let lastDeliveryDate ← getRollupDate props "Last Delivery Date"
  let location ← getMapLocation props
  let products ← getProducts props
  let id ← page.get "id"
  let lat ← coordOf location "lat"
  let lng ← coordOf location "lng"
  return { id, name, address := jsAddress address city, lat, lng,
           status, lastOrderDate, lastDeliveryDate, products }

/-- Filter predicate of filterStores: required fields truthy and status in
the whitelist (Array.prototype.includes compares with strict equality). -/
def storeKept (store : Store) : Bool :=
  store.name.truthy && store.lat.truthy && store.lng.truthy &&
    VALID_ACCOUNT_STATUSES.any (fun s => store.status.isStr s)

/-- Embedding of filterStores(stores). -/
def filterStores (stores : List Store) : List Store :=
  stores.filter storeKept

/-- OutputStoreRecord: the publishable projection built in exportStores. -/
structure OutputStore where
  id : JVal
  name : JVal
  address : JVal
  lat : JVal
  lng : JVal
  products : List String
  lastDelivery : JVal
deriving Repr

/-- Projection of one filtered store to its output record, including the
lastDelivery preference store.lastDeliveryDate or-else store.lastOrderDate. -/
def toOutputStore (store : Store) : OutputStore :=
  { id := store.id, name := store.name, address := store.address,
    lat := store.lat, lng := store.lng, products := store.products,
    lastDelivery := if store.lastDeliveryDate.truthy then store.lastDeliveryDate
                    else store.lastOrderDate }

/-- ExportDocument: the assembled output of exportStores. -/
structure ExportDocument where
  generated : String
  count : Nat
  stores : List OutputStore
deriving Repr

/-- Embedding of the pure part of exportStores: transform every fetched
page, filter, project, and assemble the document.  The generated timestamp
is a parameter standing for new Date().toISOString(). -/
def exportStores (pages : List JVal) (generated : String) :
    Except String ExportDocument := do
  let allStores ← pages.mapM transformPage
  let filteredStores := filterStores allStores
  let outputStores := filteredStores.map toOutputStore
  return { generated, count := outputStores.length, stores := outputStores }

/-! Embedding of the analysis script (the first file in
scripts/analyze-notion-data.js), restricted to the recent-customers
computation of its main loop. -/

/-- Element of an array spine at the given index. -/
def JVal.arrIdx : JVal → Nat → Option JVal
  | .arrCons h _, 0 => some h
  | .arrCons _ t, n + 1 => t.arrIdx n
  | _, _ => none

/-- Indexed access v[i]: throws on null and undefined, indexes arrays and
strings, looks the decimal key up on an object, and yields undefined on
other primitives. -/
def JVal.getIdx (v : JVal) (i : Nat) : Except String JVal :=
  match v with
  | .null => .error "TypeError"
  | .undef => .error "TypeError"
  | .str s => .ok (match s.toList.get? i with
      | some c => .str (String.mk [c])
      | none => .undef)
  | .objCons key val tail =>
      .ok (((JVal.objCons key val tail).lookupField (toString i)).getD .undef)
  | w => .ok ((w.arrIdx i).getD .undef)

/-- Optional-chaining indexed access v?.[i]. -/
def JVal.getOptIdx (v : JVal) (i : Nat) : Except String JVal :=
  match v with
  | .null => .ok .undef
  | .undef => .ok .undef
  | _ => v.getIdx i

/-- Timestamp of new Date(v) for the date values of this embedding, which
carries epoch timestamps as numbers (new Date(n) has timestamp n in JS);
date strings of the live system are abstracted to such timestamps. -/
def jsDateValue : JVal → Int
  | .num n => n
  | _ => 0

/-- Status extraction of the analysis loop:
props[Account Status]?.status?.name or-else Unknown. -/
def statusName (props : JVal) : Except String JVal := do
  let p ← props.get "Account Status"
  let st ← p.getOpt "status"
  let nm ← st.getOpt "name"
  return (if nm.truthy then nm else .str "Unknown")

/-- Map-location extraction of the analysis loop:
props[Map Location]?.place. -/
def placeOf (props : JVal) : Except String JVal := do
  let p ← props.get "Map Location"
  p.getOpt "place"

/-- Rollup-date extraction of the analysis loop:
props[propName]?.rollup?.date?.start. -/
def rollupStart (props : JVal) (propName : String) : Except String JVal := do
  let p ← props.get propName
  let r ← p.getOpt "rollup"
  let d ← r.getOpt "date"
  d.getOpt "start"

/-- Name extraction of the analysis loop:
props[Dispensary Name]?.title?.[0]?.plain_text. -/
def customerName (props : JVal) : Except String JVal := do
  let p ← props.get "Dispensary Name"
  let t ← p.getOpt "title"
  let e ← t.getOptIdx 0
  e.getOpt "plain_text"

/-- Entry pushed onto recentCustomers by the analysis loop. -/
structure RecentCustomer where
  name : JVal
  lastOrder : JVal
  lat : JVal
  lng : JVal
deriving Repr

/-- Decision of the analysis loop for one page: some entry when the page is
pushed onto recentCustomers, none otherwise.  sixtyDaysAgo is the cutoff
timestamp (report-run time minus 60 days). -/
def analyzePage (sixtyDaysAgo : Int) (page : JVal) :
    Except String (Option RecentCustomer) := do
  let props ← page.get "properties"
  let status ← statusName props
  let mapLoc ← placeOf props
  let hasCoords ←
    (if mapLoc.truthy then do
        let l ← mapLoc.get "lat"
        pure l.isNum
     else pure false)
  let lastOrder ← rollupStart props "Last Order Date"
  let lastDelivery ← rollupStart props "Last Delivery Date"
  if status.isStr "Customer" && hasCoords then
    let orderDate := if lastDelivery.truthy then lastDelivery else lastOrder
    if orderDate.truthy && decide (sixtyDaysAgo ≤ jsDateValue orderDate) then do
      let nm ← customerName props
      let name := if nm.truthy then nm else .str "Unknown"
      let lat ← mapLoc.get "lat"
      let lng ← mapLoc.get "lon"
      return some { name, lastOrder := orderDate, lat, lng }
    else
      return none
  else
    return none

/-- Accumulation of the recentCustomers array over all pages, in order. -/
def recentCustomers (sixtyDaysAgo : Int) (pages : List JVal) :
    Except String (List RecentCustomer) :=
  pages.foldlM
    (fun acc page => do
      let r ← analyzePage sixtyDaysAgo page
      pure (match r with
        | some c => acc ++ [c]
        | none => acc))
    []

/-! Concrete raw records used by counterexamples and witnesses, built in
the property-value shapes of the Notion API. -/

/-- Raw page with the given identifier and property map. -/
def mkPage (id : String) (props : List (String × JVal)) : JVal :=
  .obj [("id", .str id), ("properties", .obj props)]

/-- Title property holding one rich-text fragment. -/
def mkTitle (s : String) : String × JVal :=
  ("Dispensary Name",
   .obj [("type", .str "title"),
         ("title", .arr [.obj [("plain_text", .str s)]])])

/-- Status property with the given status name. -/
def mkStatus (s : String) : String × JVal :=
  ("Account Status",
   .obj [("type", .str "status"), ("status", .obj [("name", .str s)])])

/-- Place property with the given coordinates. -/
def mkPlace (la lo : Int) : String × JVal :=
  ("Map Location",
   .obj [("type", .str "place"),
         ("place", .obj [("lat", .num la), ("lon", .num lo)])])

/-- Date-typed rollup property whose date start is the given value. -/
def mkRollup (propName : String) (v : JVal) : String × JVal :=
  (propName,
   .obj [("type", .str "rollup"),
         ("rollup", .obj [("type", .str "date"),
                          ("date", .obj [("start", v)])])])

/-- Rich-text property holding one fragment. -/
def mkRich (propName s : String) : String × JVal :=
  (propName,
   .obj [("type", .str "rich_text"),
         ("rich_text", .arr [.obj [("plain_text", .str s)]])])

/-- Property map of a complete Customer record at latitude and longitude
exactly zero. -/
def props1w : List (String × JVal) :=
  [mkTitle "Store A", mkStatus "Customer", mkPlace 0 0]

/-- Raw page of props1w. -/
def page1w : JVal := mkPage "p1" props1w

/-- Property map of a record whose place has lat = 0 and lon = 5. -/
def props3w : List (String × JVal) :=
  [mkTitle "Store B", mkStatus "Customer", mkPlace 0 5]

/-- Raw page of props3w. -/
def page3w : JVal := mkPage "p3" props3w

/-- Property map of a record with a City rich-text value and no Address. -/
def props4x : List (String × JVal) :=
  [mkTitle "Store C", mkRich "City" "Portland"]

/-- Raw page of props4x. -/
def page4x : JVal := mkPage "p4" props4x

/-- Property map of a Customer record with coordinates whose last order
date (timestamp 100) is recent and whose last delivery date (timestamp 10)
is older and outside the window. -/
def props5x : List (String × JVal) :=
  [mkTitle "Store D", mkStatus "Customer", mkPlace 1 2,
   mkRollup "Last Order Date" (.num 100),
   mkRollup "Last Delivery Date" (.num 10)]

/-- Raw page of props5x. -/
def page5x : JVal := mkPage "p5" props5x

/-- Property map of a record with both street and city present. -/
def props4w : List (String × JVal) :=
  [mkTitle "Store E", mkRich "Address" "1 Main St", mkRich "City" "Portland"]

/-- Raw page of props4w. -/
def page4w : JVal := mkPage "p4w" props4w

/-- NormalizedStore produced for props4w. -/
def store4w : Store :=
  { id := .str "p4w", name := .str "Store E",
    address := .str "1 Main St, Portland", lat := .null, lng := .null,
    status := .null, lastOrderDate := .null, lastDeliveryDate := .null,
    products := [] }

/-- Property map of a Customer record whose delivery date 10 is older than
its order date 100. -/
def props9w : List (String × JVal) :=
  [mkTitle "Store G", mkStatus "Customer", mkPlace 5 6,
   mkRollup "Last Order Date" (.num 100),
   mkRollup "Last Delivery Date" (.num 10)]

/-- Raw page of props9w. -/
def page9w : JVal := mkPage "p9" props9w

/-- Output record produced for props9w: lastDelivery is the older delivery
date 10, not the more recent order date 100. -/
def out9w : OutputStore :=
  { id := .str "p9", name := .str "Store G", address := .null,
    lat := .num 5, lng := .num 6, products := [],
    lastDelivery := .num 10 }

/-- Document produced for the single page props9w. -/
def doc9w : ExportDocument :=
  { generated := "t", count := 1, stores := [out9w] }

/-- Complete store record whose status is Lead. -/
def leadStore : Store :=
  { id := .str "x", name := .str "Lead Store", address := .str "1 Main St",
    lat := .num 10, lng := .num 20, status := .str "Lead",
    lastOrderDate := .num 100, lastDeliveryDate := .num 100,
    products := ["SMACK"] }

/-- Property map of a publishable record used by the C7 witness. -/
def props7w : List (String × JVal) :=
  [mkTitle "Good Store", mkStatus "Customer Overdue", mkPlace 37 (-122)]

/-- Raw page of props7w. -/
def page7w : JVal := mkPage "p7" props7w

/-- Output record produced for props7w. -/
def out7w : OutputStore :=
  { id := .str "p7", name := .str "Good Store", address := .null,
    lat := .num 37, lng := .num (-122), products := [],
    lastDelivery := .null }

/-- Document produced for the single page props7w. -/
def doc7w : ExportDocument :=
  { generated := "t", count := 1, stores := [out7w] }

/-- Document produced for the single page props1w (whose record is dropped)
used by the C10 witness. -/
def doc10w : ExportDocument :=
  { generated := "g", count := 0, stores := [] }

/-- Property map of a Customer record with coordinates and a recent
delivery date. -/
def props5w : List (String × JVal) :=
  [mkTitle "Store F", mkStatus "Customer", mkPlace 3 4,
   mkRollup "Last Delivery Date" (.num 100)]

/-- Raw page of props5w. -/
def page5w : JVal := mkPage "p5w" props5w

/-- Entry pushed for props5w. -/
def entry5w : RecentCustomer :=
  { name := .str "Store F", lastOrder := .num 100,
    lat := .num 3, lng := .num 4 }

/-- Property map holding truthy rollup dates for both SMACK size
variants. -/
def props8w : List (String × JVal) :=
  [mkRollup "SMACK 1G" (.num 7), mkRollup "SMACK .5G" (.num 8)]

/-! General lemmas about the embedding. -/

/-- Bind on a success value reduces to the continuation. -/
theorem ok_bind {α β ε : Type} (a : α) (f : α → Except ε β) :
    (Except.ok a : Except ε α) >>= f = f a := rfl

/-- Bind on an error value propagates the error. -/
theorem error_bind {α β ε : Type} (e : ε) (f : α → Except ε β) :
    (Except.error e : Except ε α) >>= f = Except.error e := rfl

/-- Pure of the Except monad is the success constructor. -/
theorem pure_ok {α ε : Type} (a : α) :
    (pure a : Except ε α) = Except.ok a := rfl

/-- Strict string comparison characterized. -/
theorem isStr_iff (v : JVal) (s : String) : v.isStr s = true ↔ v = .str s := by
  cases v <;> simp [JVal.isStr]

/-- Characterization of the number test. -/
theorem isNum_iff (v : JVal) : v.isNum = true ↔ ∃ n, v = .num n := by
  cases v <;> simp [JVal.isNum]

/-- A truthy value is neither null nor undefined, so plain property access
on it cannot throw. -/
theorem get_ok_of_truthy (v : JVal) (k : String) (h : v.truthy = true) :
    ∃ w, v.get k = .ok w := by
  cases v <;> simp [JVal.truthy] at h <;> exact ⟨_, rfl⟩

/-- Shape of a getPlainText result: null or a non-empty string. -/
theorem getPlainText_shape (rt v : JVal) (h : getPlainText rt = .ok v) :
    v = .null ∨ ∃ s, v = .str s ∧ s ≠ "" := by
  cases hl : rt.asList with
  | none =>
      simp only [getPlainText, hl] at h
      cases h
      exact Or.inl rfl
  | some elems =>
      simp only [getPlainText, hl] at h
      cases hm : elems.mapM (fun rt => rt.get "plain_text") with
      | error e => rw [hm] at h; exact Except.noConfusion h
      | ok texts =>
          rw [hm] at h
          simp only [ok_bind, pure_ok, Except.ok.injEq] at h
          split at h
          · next hne =>
              refine Or.inr ⟨_, h.symm, ?_⟩
              simpa using hne
          · exact Or.inl h.symm

/-- Shape of a getTitle result: null or a non-empty string. -/
theorem getTitle_shape (props v : JVal) (h : getTitle props = .ok v) :
    v = .null ∨ ∃ s, v = .str s ∧ s ≠ "" := by
  unfold getTitle at h
  cases h1 : props.get "Dispensary Name" <;> rw [h1] at h
  · exact Except.noConfusion h
  next titleProp =>
  simp only [ok_bind] at h
  by_cases ht : titleProp.truthy = true
  · simp only [ht, Bool.not_true, Bool.false_eq_true, if_false] at h
    cases h2 : titleProp.get "type" <;> rw [h2] at h
    · exact Except.noConfusion h
    next ty =>
    simp only [ok_bind] at h
    by_cases hty : ty.isStr "title" = true
    · simp only [hty, Bool.not_true, Bool.false_eq_true, if_false] at h
      cases h3 : titleProp.get "title" <;> rw [h3] at h
      · exact Except.noConfusion h
      next t =>
      simp only [ok_bind] at h
      exact getPlainText_shape t v h
    · simp only [Bool.not_eq_true] at hty
      simp only [hty, Bool.not_false, if_true, pure_ok, Except.ok.injEq] at h
      exact Or.inl h.symm
  · simp only [Bool.not_eq_true] at ht
    simp only [ht, Bool.not_false, if_true, pure_ok, Except.ok.injEq] at h
    exact Or.inl h.symm

/-- Shape of a getRollupDate result: null or truthy, because the final
or-null replaces every falsy start value by null. -/
theorem getRollupDate_shape (props : JVal) (propName : String) (v : JVal)
    (h : getRollupDate props propName = .ok v) :
    v = .null ∨ v.truthy = true := by
  unfold getRollupDate at h
  cases h1 : props.get propName <;> rw [h1] at h
  · exact Except.noConfusion h
  next prop =>
  simp only [ok_bind] at h
  by_cases hp : prop.truthy = true
  · simp only [hp, Bool.not_true, Bool.false_eq_true, if_false] at h
    cases h2 : prop.get "type" <;> rw [h2] at h
    · exact Except.noConfusion h
    next ty =>
    simp only [ok_bind] at h
    by_cases hty : ty.isStr "rollup" = true
    · simp only [hty, Bool.not_true, Bool.false_eq_true, if_false] at h
      cases h3 : prop.get "rollup" <;> rw [h3] at h
      · exact Except.noConfusion h
      next rollup =>
      simp only [ok_bind] at h
      cases h4 : rollup.get "type" <;> rw [h4] at h
      · exact Except.noConfusion h
      next rty =>
      simp only [ok_bind] at h
      by_cases hrty : rty.isStr "date" = true
      · simp only [hrty, if_true] at h
        cases h5 : rollup.get "date" <;> rw [h5] at h
        · exact Except.noConfusion h
        next d =>
        simp only [ok_bind] at h
        by_cases hd : d.truthy = true
        · simp only [hd, if_true] at h
          cases h6 : d.get "start" <;> rw [h6] at h
          · exact Except.noConfusion h
          next s0 =>
          simp only [ok_bind, pure_ok, Except.ok.injEq] at h
          split at h
          · next hs0 => exact Or.inr (h ▸ hs0)
          · exact Or.inl h.symm
        · simp only [Bool.not_eq_true] at hd
          simp only [hd, Bool.false_eq_true, if_false, pure_ok, Except.ok.injEq] at h
          exact Or.inl h.symm
      · simp only [Bool.not_eq_true] at hrty
        simp only [hrty, Bool.false_eq_true, if_false, pure_ok, Except.ok.injEq] at h
        exact Or.inl h.symm
    · simp only [Bool.not_eq_true] at hty
      simp only [hty, Bool.not_false, if_true, pure_ok, Except.ok.injEq] at h
      exact Or.inl h.symm
  · simp only [Bool.not_eq_true] at hp
    simp only [hp, Bool.not_false, if_true, pure_ok, Except.ok.injEq] at h
    exact Or.inl h.symm

/-- Shape of a getMapLocation result: null or an object holding a numeric
lat and lng pair. -/
theorem getMapLocation_shape (props v : JVal) (h : getMapLocation props = .ok v) :
    v = .null ∨ ∃ a b : Int, v = .obj [("lat", .num a), ("lng", .num b)] := by
  unfold getMapLocation at h
  cases h1 : props.get "Map Location" <;> rw [h1] at h
  · exact Except.noConfusion h
  next placeProp =>
  simp only [ok_bind] at h
  by_cases hp : placeProp.truthy = true
  · simp only [hp, Bool.not_true, Bool.false_eq_true, if_false] at h
    cases h2 : placeProp.get "type" <;> rw [h2] at h
    · exact Except.noConfusion h
    next ty =>
    simp only [ok_bind] at h
    by_cases hty : ty.isStr "place" = true
    · simp only [hty, Bool.not_true, Bool.false_eq_true, if_false] at h
      cases h3 : placeProp.get "place" <;> rw [h3] at h
      · exact Except.noConfusion h
      next place =>
      simp only [ok_bind] at h
      by_cases hpl : place.truthy = true
      · simp only [hpl, Bool.not_true, Bool.false_eq_true, if_false] at h
        cases h4 : place.get "lat" <;> rw [h4] at h
        · exact Except.noConfusion h
        next lat =>
        simp only [ok_bind] at h
        cases h5 : place.get "lon" <;> rw [h5] at h
        · exact Except.noConfusion h
        next lon =>
        simp only [ok_bind] at h
        by_cases hn : (lat.isNum && lon.isNum) = true
        · simp only [hn, Bool.not_true, Bool.false_eq_true, if_false, pure_ok,
            Except.ok.injEq] at h
          have hn2 : lat.isNum = true ∧ lon.isNum = true := by simpa using hn
          obtain ⟨a, ha⟩ := (isNum_iff lat).mp hn2.1
          obtain ⟨b, hb⟩ := (isNum_iff lon).mp hn2.2
          exact Or.inr ⟨a, b, by rw [← h, ha, hb]⟩
        · simp only [Bool.not_eq_true] at hn
          simp only [hn, Bool.not_false, if_true, pure_ok, Except.ok.injEq] at h
          exact Or.inl h.symm
      · simp only [Bool.not_eq_true] at hpl
        simp only [hpl, Bool.not_false, if_true, pure_ok, Except.ok.injEq] at h
        exact Or.inl h.symm
    · simp only [Bool.not_eq_true] at hty
      simp only [hty, Bool.not_false, if_true, pure_ok, Except.ok.injEq] at h
      exact Or.inl h.symm
  · simp only [Bool.not_eq_true] at hp
    simp only [hp, Bool.not_false, if_true, pure_ok, Except.ok.injEq] at h
    exact Or.inl h.symm

/-- Shape of a coordinate component of the transform: null, or a non-zero
number, given the shape of the extracted location. -/
theorem coordOf_shape (location v : JVal) (k : String)
    (hloc : location = .null ∨
      ∃ a b : Int, location = .obj [("lat", .num a), ("lng", .num b)])
    (hk : k = "lat" ∨ k = "lng")
    (h : coordOf location k = .ok v) :
    v = .null ∨ ∃ n : Int, v = .num n ∧ n ≠ 0 := by
  rcases hloc with hnull | ⟨a, b, hobj⟩
  · subst hnull
    simp only [coordOf, JVal.getOpt, ok_bind, pure_ok, Except.ok.injEq] at h
    exact Or.inl h.symm
  · subst hobj
    rcases hk with hk | hk <;> subst hk
    · simp [coordOf, JVal.getOpt, JVal.get, JVal.obj, JVal.lookupField,
        ok_bind, pure_ok] at h
      split at h
      · next ha => exact Or.inr ⟨a, h.symm, by simpa [JVal.truthy] using ha⟩
      · exact Or.inl h.symm
    · simp [coordOf, JVal.getOpt, JVal.get, JVal.obj, JVal.lookupField,
        ok_bind, pure_ok] at h
      split at h
      · next hb => exact Or.inr ⟨b, h.symm, by simpa [JVal.truthy] using hb⟩
      · exact Or.inl h.symm

/-- Inversion of transformPage: a successful transform decomposes into the
individual successful extractions, and the store is assembled from them
exactly as in the source. -/
theorem transformPage_inv (page : JVal) (s : Store)
    (h : transformPage page = .ok s) :
    ∃ props name address city status lod ldd location products id lat lng,
      page.get "properties" = .ok props ∧
      getTitle props = .ok name ∧
      richTextOf props "Address" = .ok address ∧
      richTextOf props "City" = .ok city ∧
      getStatus props = .ok status ∧
      getRollupDate props "Last Order Date" = .ok lod ∧
      getRollupDate props "Last Delivery Date" = .ok ldd ∧
      getMapLocation props = .ok location ∧
      getProducts props = .ok products ∧
      page.get "id" = .ok id ∧
      coordOf location "lat" = .ok lat ∧
      coordOf location "lng" = .ok lng ∧
      s = { id := id, name := name, address := jsAddress address city,
            lat := lat, lng := lng, status := status,
            lastOrderDate := lod, lastDeliveryDate := ldd,
            products := products } := by
  unfold transformPage at h
  cases h1 : page.get "properties" <;> rw [h1] at h
  · exact Except.noConfusion h
  next props =>
  simp only [ok_bind] at h
  cases h2 : getTitle props <;> rw [h2] at h
  · exact Except.noConfusion h
  next name =>
  simp only [ok_bind] at h
  cases h3 : richTextOf props "Address" <;> rw [h3] at h
  · exact Except.noConfusion h
  next address =>
  simp only [ok_bind] at h
  cases h4 : richTextOf props "City" <;> rw [h4] at h
  · exact Except.noConfusion h
  next city =>
  simp only [ok_bind] at h
  cases h5 : getStatus props <;> rw [h5] at h
  · exact Except.noConfusion h
  next status =>
  simp only [ok_bind] at h
  cases h6 : getRollupDate props "Last Order Date" <;> rw [h6] at h
  · exact Except.noConfusion h
  next lod =>
  simp only [ok_bind] at h
  cases h7 : getRollupDate props "Last Delivery Date" <;> rw [h7] at h
  · exact Except.noConfusion h
  next ldd =>
  simp only [ok_bind] at h
  cases h8 : getMapLocation props <;> rw [h8] at h
  · exact Except.noConfusion h
  next location =>
  simp only [ok_bind] at h
  cases h9 : getProducts props <;> rw [h9] at h
  · exact Except.noConfusion h
  next products =>
  simp only [ok_bind] at h
  cases h10 : page.get "id" <;> rw [h10] at h
  · exact Except.noConfusion h
  next id =>
  simp only [ok_bind] at h
  cases h11 : coordOf location "lat" <;> rw [h11] at h
  · exact Except.noConfusion h
  next lat =>
  simp only [ok_bind] at h
  cases h12 : coordOf location "lng" <;> rw [h12] at h
  · exact Except.noConfusion h
  next lng =>
  simp only [ok_bind, pure_ok, Except.ok.injEq] at h
  subst h
  exact ⟨props, name, address, city, status, lod, ldd, location, products,
    id, lat, lng, rfl, h2, h3, h4, h5, h6, h7, h8, h9, rfl, h11, h12, rfl⟩

/-- Success of mapM on a list yields, for every output element, an input
element mapped successfully onto it. -/
theorem mapM_mem {α β : Type} (f : α → Except String β) :
    ∀ (l : List α) (res : List β), l.mapM f = .ok res →
      ∀ b ∈ res, ∃ a ∈ l, f a = .ok b := by
  intro l
  induction l with
  | nil =>
      intro res h b hb
      simp only [List.mapM_nil, pure_ok, Except.ok.injEq] at h
      subst h
      exact absurd hb (List.not_mem_nil b)
  | cons a l ih =>
      intro res h b hb
      rw [List.mapM_cons] at h
      cases ha : f a <;> rw [ha] at h
      · exact Except.noConfusion h
      next b0 =>
      simp only [ok_bind] at h
      cases hl : l.mapM f <;> rw [hl] at h
      · exact Except.noConfusion h
      next bs =>
      simp only [ok_bind, pure_ok, Except.ok.injEq] at h
      subst h
      rcases List.mem_cons.mp hb with hb0 | hbs
      · exact ⟨a, List.mem_cons_self a l, hb0 ▸ ha⟩
      · obtain ⟨a1, ha1, hfa1⟩ := ih bs hl b hbs
        exact ⟨a1, List.mem_cons_of_mem a ha1, hfa1⟩

/-- Inversion of exportStores: the document is assembled from the
transforms of all pages, filtered and projected. -/
theorem exportStores_inv (pages : List JVal) (generated : String)
    (doc : ExportDocument) (h : exportStores pages generated = .ok doc) :
    ∃ allStores, pages.mapM transformPage = .ok allStores ∧
      doc = { generated := generated,
              count := ((filterStores allStores).map toOutputStore).length,
              stores := (filterStores allStores).map toOutputStore } := by
  unfold exportStores at h
  cases hm : pages.mapM transformPage <;> rw [hm] at h
  · exact Except.noConfusion h
  next allStores =>
  simp only [ok_bind, pure_ok, Except.ok.injEq] at h
  exact ⟨allStores, rfl, h.symm⟩

/-- C1: a record whose extracted coordinates are lat = 0 and lng = 0, with
name present and status Customer, is dropped: the coordinate extraction
succeeds with the zero pair, yet the transform nulls both components
(location?.lat or-else null) and the filter rejects the record
(!store.lat), so the assembled document is empty.  The claim says the
record survives filtering and appears in the output. -/
theorem C1_zero_coordinate_record_filtered_out :
    getMapLocation (.obj props1w) = .ok (.obj [("lat", .num 0), ("lng", .num 0)]) ∧
    getTitle (.obj props1w) = .ok (.str "Store A") ∧
    getStatus (.obj props1w) = .ok (.str "Customer") ∧
    exportStores [page1w] "t" = .ok { generated := "t", count := 0, stores := [] } :=
  ⟨rfl, rfl, rfl, rfl⟩

/-- C2: the field accessors are not total on malformed input: getPlainText
throws a TypeError on a rich-text array containing a null element (rt.plain_text
with rt null), and getRollupDate throws when the property has type rollup
but the nested rollup object is missing (rollup.type on undefined).  The
claim says no accessor ever raises an error. -/
theorem C2_accessors_can_throw :
    getPlainText (.arr [.null]) = .error "TypeError" ∧
    getRollupDate (.obj [("Last Order Date", .obj [("type", .str "rollup")])])
        "Last Order Date" = .error "TypeError" :=
  ⟨rfl, rfl⟩

/-- C3: the NormalizedStore invariant fails on a record with lat = 0 and
lng = 5: coordinate extraction succeeds with the complete pair, yet the
transform maps lat through the or-null and yields a store with lat absent
and lng present — exactly one coordinate component present.  The claim says
this can never happen. -/
theorem C3_partial_coordinates_possible :
    getMapLocation (.obj props3w) = .ok (.obj [("lat", .num 0), ("lng", .num 5)]) ∧
    (transformPage page3w).map (fun s => (s.lat, s.lng)) =
      .ok (JVal.null, JVal.num 5) :=
  ⟨rfl, rfl⟩

/-- C4 counterexample: on a record whose city is present and whose street
is absent, the normalized address is absent, not the city: the claim says
whichever of street and city is present is used, so city alone would yield
the city. -/
theorem C4_city_only_address_absent :
    richTextOf (.obj props4x) "City" = .ok (.str "Portland") ∧
    richTextOf (.obj props4x) "Address" = .ok .null ∧
    (transformPage page4x).map (fun s => s.address) = .ok JVal.null :=
  ⟨rfl, rfl, rfl⟩

/-- C4 amended: the normalized address is the concatenation of street and
city when both are present, the street alone when only the street is
present, and absent whenever the street is absent, even when the city is
present. -/
theorem C4_address_assembly (page props a c : JVal) (s : Store)
    (hp : page.get "properties" = .ok props)
    (ha : richTextOf props "Address" = .ok a)
    (hc : richTextOf props "City" = .ok c)
    (hs : transformPage page = .ok s) :
    (a.truthy = true → c.truthy = true →
        s.address = .str (a.jsToString ++ ", " ++ c.jsToString)) ∧
    (a.truthy = true → c.truthy = false → s.address = a) ∧
    (a.truthy = false → s.address = .null) := by
  obtain ⟨props1, name, a1, c1, status, lod, ldd, location, products, id,
    lat, lng, hp1, _, ha1, hc1, _, _, _, _, _, _, _, _, hrec⟩ :=
    transformPage_inv page s hs
  rw [hp] at hp1
  cases hp1
  rw [ha] at ha1
  cases ha1
  rw [hc] at hc1
  cases hc1
  subst hrec
  refine ⟨?_, ?_, ?_⟩
  · intro hat hct
    simp [jsAddress, hat, hct]
  · intro hat hcf
    simp [jsAddress, hat, hcf]
  · intro haf
    simp [jsAddress, haf]

/-- C4 witness: with street and city both present the normalized address
is the comma-joined concatenation. -/
theorem C4_address_assembly_check :
    transformPage page4w = .ok store4w ∧
    store4w.address = .str "1 Main St, Portland" :=
  ⟨rfl,
   (C4_address_assembly page4w (.obj props4w) (.str "1 Main St")
      (.str "Portland") store4w rfl rfl rfl rfl).1 rfl rfl⟩

/-- C9: every record of the assembled document comes from a kept store,
and its lastDelivery is the store's delivery date whenever that date is
present (non-null), and the store's order date when the delivery date is
null — a pure preference, independent of which date is more recent. -/
theorem C9_lastDelivery_preference (pages : List JVal) (generated : String)
    (doc : ExportDocument) (h : exportStores pages generated = .ok doc) :
    ∀ o ∈ doc.stores, ∃ s : Store, storeKept s = true ∧ o = toOutputStore s ∧
      (s.lastDeliveryDate ≠ .null → o.lastDelivery = s.lastDeliveryDate) ∧
      (s.lastDeliveryDate = .null → o.lastDelivery = s.lastOrderDate) := by
  intro o ho
  obtain ⟨allStores, hmap, hdoc⟩ := exportStores_inv pages generated doc h
  subst hdoc
  obtain ⟨s, hsmem, hso⟩ := List.mem_map.mp ho
  have hkept : storeKept s = true := (List.mem_filter.mp hsmem).2
  have hsall : s ∈ allStores := (List.mem_filter.mp hsmem).1
  obtain ⟨p, _, hps⟩ := mapM_mem transformPage pages allStores hmap s hsall
  obtain ⟨props, name, address, city, status, lod, ldd, location, products,
    id, lat, lng, _, _, _, _, _, _, hldd, _, _, _, _, _, hs⟩ :=
    transformPage_inv p s hps
  have hlddsh := getRollupDate_shape props "Last Delivery Date" ldd hldd
  subst hs
  refine ⟨_, hkept, hso.symm, ?_, ?_⟩
  · intro hne
    rw [← hso]
    simp only [toOutputStore]
    rcases hlddsh with hnull | htr
    · exact absurd hnull (by simpa using hne)
    · rw [if_pos (by simpa using htr)]
  · intro hnull
    rw [← hso]
    simp only [toOutputStore]
    have hnull2 : ldd = JVal.null := by simpa using hnull
    rw [if_neg (by simp [hnull2, JVal.truthy])]

/-- C9 witness: the preference property instantiated at the concrete
record whose delivery date is older than its order date; the output indeed
carries the delivery date. -/
theorem C9_lastDelivery_preference_check :
    (∃ s : Store, storeKept s = true ∧ out9w = toOutputStore s ∧
      (s.lastDeliveryDate ≠ .null → out9w.lastDelivery = s.lastDeliveryDate) ∧
      (s.lastDeliveryDate = .null → out9w.lastDelivery = s.lastOrderDate)) ∧
    out9w.lastDelivery = .num 10 :=
  ⟨C9_lastDelivery_preference [page9w] "t" doc9w rfl out9w (List.Mem.head _),
   rfl⟩

/-- C6: a store whose status is not a string of the whitelist (for example
Lead or Churned, or a non-string status) is rejected by filterStores and so
is never a member of the filtered list, however complete its other fields
are. -/
theorem C6_status_whitelist_rejects (s : Store)
    (h : ∀ t : String, s.status = .str t → t ∉ VALID_ACCOUNT_STATUSES) :
    ∀ stores : List Store, s ∉ filterStores stores := by
  intro stores hmem
  have hk : storeKept s = true := (List.mem_filter.mp hmem).2
  simp only [storeKept, Bool.and_eq_true] at hk
  obtain ⟨t, htmem, hts⟩ := List.any_eq_true.mp hk.2
  exact h t ((isStr_iff _ _).mp hts) htmem

/-- C6 witness: the concrete Lead store is filtered out of a list holding
only it. -/
theorem C6_status_whitelist_rejects_check :
    leadStore ∉ filterStores [leadStore] :=
  C6_status_whitelist_rejects leadStore
    (fun t ht => by cases ht; decide) [leadStore]

/-- C7: every record of the assembled document has numeric lat and lng and
a non-empty string name. -/
theorem C7_output_fields_invariant (pages : List JVal) (generated : String)
    (doc : ExportDocument) (h : exportStores pages generated = .ok doc) :
    ∀ o ∈ doc.stores,
      (∃ a : Int, o.lat = .num a) ∧ (∃ b : Int, o.lng = .num b) ∧
      (∃ t : String, o.name = .str t ∧ t ≠ "") := by
  intro o ho
  obtain ⟨allStores, hmap, hdoc⟩ := exportStores_inv pages generated doc h
  subst hdoc
  obtain ⟨s, hsmem, hso⟩ := List.mem_map.mp ho
  have hkept : storeKept s = true := (List.mem_filter.mp hsmem).2
  have hsall : s ∈ allStores := (List.mem_filter.mp hsmem).1
  obtain ⟨p, _, hps⟩ := mapM_mem transformPage pages allStores hmap s hsall
  obtain ⟨props, name, address, city, status, lod, ldd, location, products,
    id, lat, lng, _, hname, _, _, _, _, _, hloc, _, _, hlat, hlng, hs⟩ :=
    transformPage_inv p s hps
  have hlocsh := getMapLocation_shape props location hloc
  have hlatsh := coordOf_shape location lat "lat" hlocsh (Or.inl rfl) hlat
  have hlngsh := coordOf_shape location lng "lng" hlocsh (Or.inr rfl) hlng
  have hnamesh := getTitle_shape props name hname
  subst hs
  simp only [storeKept, Bool.and_eq_true] at hkept
  obtain ⟨⟨⟨hn, hl⟩, hg⟩, _⟩ := hkept
  rw [← hso]
  simp only [toOutputStore]
  refine ⟨?_, ?_, ?_⟩
  · rcases hlatsh with hnull | ⟨n, hnum, _⟩
    · rw [hnull] at hl; exact absurd hl (by simp [JVal.truthy])
    · exact ⟨n, hnum⟩
  · rcases hlngsh with hnull | ⟨n, hnum, _⟩
    · rw [hnull] at hg; exact absurd hg (by simp [JVal.truthy])
    · exact ⟨n, hnum⟩
  · rcases hnamesh with hnull | ⟨t, hstr, hne⟩
    · rw [hnull] at hn; exact absurd hn (by simp [JVal.truthy])
    · exact ⟨t, hstr, hne⟩

/-- C7 witness: the invariant holds of the record exported for the
concrete publishable page. -/
theorem C7_output_fields_invariant_check :
    (∃ a : Int, out7w.lat = .num a) ∧ (∃ b : Int, out7w.lng = .num b) ∧
    (∃ t : String, out7w.name = .str t ∧ t ≠ "") :=
  C7_output_fields_invariant [page7w] "t" doc7w rfl out7w (List.Mem.head _)

/-- C10: the count field of every assembled document equals the length of
its stores array. -/
theorem C10_count_matches (pages : List JVal) (generated : String)
    (doc : ExportDocument) (h : exportStores pages generated = .ok doc) :
    doc.count = doc.stores.length := by
  obtain ⟨allStores, _, hdoc⟩ := exportStores_inv pages generated doc h
  subst hdoc
  rfl

/-- C10 witness: the invariant instantiated at a concrete export. -/
theorem C10_count_matches_check : doc10w.count = doc10w.stores.length :=
  C10_count_matches [page1w] "g" doc10w rfl

/-- C5 counterexample: with cutoff 50, a Customer record with coordinates
whose order date 100 is within the window while its delivery date 10 is
outside it is excluded from the recent-customers subset, because the loop
takes lastDelivery or-else lastOrder rather than the most recent of the
two.  The claim says the record is included whenever the most recent of the
two dates is within the window. -/
theorem C5_recent_order_excluded :
    rollupStart (.obj props5x) "Last Order Date" = .ok (.num 100) ∧
    rollupStart (.obj props5x) "Last Delivery Date" = .ok (.num 10) ∧
    statusName (.obj props5x) = .ok (.str "Customer") ∧
    analyzePage 50 page5x = .ok none ∧
    recentCustomers 50 [page5x] = .ok [] :=
  ⟨rfl, rfl, rfl, rfl, rfl⟩

/-- C5 amended: a Customer record with valid coordinates is included in
the recent-customers subset exactly when its preferred date — the delivery
date when truthy, else the order date — falls within the window, regardless
of whether the other date is more recent. -/
theorem C5_delivery_preference_window (sixtyDaysAgo : Int)
    (page props status mapLoc latv lo ld nm : JVal)
    (r : Option RecentCustomer)
    (hp : page.get "properties" = .ok props)
    (hst : statusName props = .ok status)
    (hcust : status.isStr "Customer" = true)
    (hm : placeOf props = .ok mapLoc)
    (hmt : mapLoc.truthy = true)
    (hlat : mapLoc.get "lat" = .ok latv)
    (hnum : latv.isNum = true)
    (hlo : rollupStart props "Last Order Date" = .ok lo)
    (hld : rollupStart props "Last Delivery Date" = .ok ld)
    (hnm : customerName props = .ok nm)
    (h : analyzePage sixtyDaysAgo page = .ok r) :
    r.isSome = true ↔
      ((if ld.truthy then ld else lo).truthy = true ∧
        sixtyDaysAgo ≤ jsDateValue (if ld.truthy then ld else lo)) := by
  simp only [analyzePage, hp, hst, hm, hmt, hlat, hnum, hlo, hld, hcust,
    ok_bind, pure_ok, if_true, Bool.true_and, Bool.and_true] at h
  by_cases hcond : ((if ld.truthy then ld else lo).truthy &&
      decide (sixtyDaysAgo ≤ jsDateValue (if ld.truthy then ld else lo))) = true
  · rw [if_pos hcond] at h
    rw [hnm] at h
    simp only [ok_bind] at h
    obtain ⟨w, hw⟩ := get_ok_of_truthy mapLoc "lon" hmt
    rw [hw] at h
    simp only [ok_bind, pure_ok, Except.ok.injEq] at h
    subst h
    refine ⟨fun _ => ?_, fun _ => rfl⟩
    simpa [Bool.and_eq_true, decide_eq_true_eq] using hcond
  · rw [if_neg hcond] at h
    simp only [pure_ok, Except.ok.injEq] at h
    subst h
    simp only [Option.isSome_none, Bool.false_eq_true, false_iff]
    exact fun hR => hcond (by simp [Bool.and_eq_true, decide_eq_true_eq,
      hR.1, hR.2])

/-- C5 witness: the amended inclusion condition instantiated at a concrete
Customer record whose delivery date 100 is inside the window at cutoff 50. -/
theorem C5_delivery_preference_window_check :
    (some entry5w).isSome = true ↔
      ((JVal.num 100).truthy = true ∧
        (50 : Int) ≤ jsDateValue (.num 100)) :=
  C5_delivery_preference_window 50 page5w (.obj props5w) (.str "Customer")
    (.obj [("lat", .num 3), ("lon", .num 4)]) (.num 3) .undef (.num 100)
    (.str "Store F") (some entry5w) rfl rfl rfl rfl rfl rfl rfl rfl rfl rfl rfl

/-- Specification of the products accumulator: on success with a duplicate
free accumulator the result is duplicate free, and a display name is in the
result exactly when it was already accumulated or some remaining column
maps to it and carries a truthy rollup date. -/
theorem productsAux_spec (props : JVal) :
    ∀ (cols : List (String × String)) (acc ps : List String),
      productsAux props cols acc = .ok ps → acc.Nodup →
      ps.Nodup ∧ ∀ d : String, d ∈ ps ↔ (d ∈ acc ∨ ∃ col : String,
        (col, d) ∈ cols ∧
        ∃ v, getRollupDate props col = .ok v ∧ v.truthy = true) := by
  intro cols
  induction cols with
  | nil =>
      intro acc ps h hnd
      simp only [productsAux, Except.ok.injEq] at h
      subst h
      exact ⟨hnd, fun d => by simp⟩
  | cons cd rest ih =>
      obtain ⟨col, dn⟩ := cd
      intro acc ps h hnd
      simp only [productsAux] at h
      cases hd : getRollupDate props col <;> rw [hd] at h
      · exact Except.noConfusion h
      next date =>
      simp only [ok_bind] at h
      have hPcol : (∃ v, getRollupDate props col = .ok v ∧ v.truthy = true) ↔
          date.truthy = true :=
        ⟨fun ⟨v, hv, ht⟩ => by rw [hd] at hv; cases hv; exact ht,
         fun ht => ⟨date, hd, ht⟩⟩
      by_cases hdt : date.truthy = true
      · by_cases hc : acc.contains dn = true
        · simp only [hdt, hc, if_true] at h
          obtain ⟨hnd2, hmem⟩ := ih acc ps h hnd
          refine ⟨hnd2, fun d => ?_⟩
          rw [hmem d]
          constructor
          · rintro (hacc | ⟨c1, hc1, hP⟩)
            · exact Or.inl hacc
            · exact Or.inr ⟨c1, List.mem_cons_of_mem _ hc1, hP⟩
          · rintro (hacc | ⟨c1, hc1, hP⟩)
            · exact Or.inl hacc
            · rcases List.mem_cons.mp hc1 with heq | hrest
              · have hdeq : d = dn := (Prod.mk.injEq _ _ _ _ ▸ heq).2
                exact Or.inl (hdeq ▸ List.elem_iff.mp hc)
              · exact Or.inr ⟨c1, hrest, hP⟩
        · have hdn : dn ∉ acc := fun hmem2 => hc (List.elem_iff.mpr hmem2)
          simp only [hdt, hc, if_true, Bool.false_eq_true, if_false] at h
          have hnd2 : (acc ++ [dn]).Nodup := by
            simp [List.nodup_append, hnd, hdn]
          obtain ⟨hnd3, hmem⟩ := ih (acc ++ [dn]) ps h hnd2
          refine ⟨hnd3, fun d => ?_⟩
          rw [hmem d]
          constructor
          · rintro (haccdn | ⟨c1, hc1, hP⟩)
            · rcases List.mem_append.mp haccdn with hacc | hdn2
              · exact Or.inl hacc
              · have hdeq : d = dn := by simpa using hdn2
                exact Or.inr ⟨col, by simp [hdeq], hPcol.mpr hdt⟩
            · exact Or.inr ⟨c1, List.mem_cons_of_mem _ hc1, hP⟩
          · rintro (hacc | ⟨c1, hc1, hP⟩)
            · exact Or.inl (List.mem_append.mpr (Or.inl hacc))
            · rcases List.mem_cons.mp hc1 with heq | hrest
              · have hdeq : d = dn := (Prod.mk.injEq _ _ _ _ ▸ heq).2
                exact Or.inl (List.mem_append.mpr (Or.inr (by simp [hdeq])))
              · exact Or.inr ⟨c1, hrest, hP⟩
      · simp only [hdt, Bool.false_eq_true, if_false] at h
        obtain ⟨hnd2, hmem⟩ := ih acc ps h hnd
        refine ⟨hnd2, fun d => ?_⟩
        rw [hmem d]
        constructor
        · rintro (hacc | ⟨c1, hc1, hP⟩)
          · exact Or.inl hacc
          · exact Or.inr ⟨c1, List.mem_cons_of_mem _ hc1, hP⟩
        · rintro (hacc | ⟨c1, hc1, hP⟩)
          · exact Or.inl hacc
          · rcases List.mem_cons.mp hc1 with heq | hrest
            · have hceq : c1 = col := (Prod.mk.injEq _ _ _ _ ▸ heq).1
              exact absurd (hPcol.mp (hceq ▸ hP)) hdt
            · exact Or.inr ⟨c1, hrest, hP⟩

/-- C8: the product list of every record is duplicate free, and a display
name appears exactly when some indicator column mapping to it carries a
truthy rollup date. -/
theorem C8_products_dedup (props : JVal) (ps : List String)
    (h : getProducts props = .ok ps) :
    ps.Nodup ∧ ∀ d : String, d ∈ ps ↔ ∃ col : String,
      (col, d) ∈ PRODUCT_COLUMNS ∧
      ∃ v, getRollupDate props col = .ok v ∧ v.truthy = true := by
  obtain ⟨hnd, hmem⟩ := productsAux_spec props PRODUCT_COLUMNS [] ps h
    List.nodup_nil
  exact ⟨hnd, fun d => by rw [hmem d]; simp⟩

/-- C8 witness: the two SMACK indicator columns yield exactly one SMACK
entry, and the produced list is duplicate free. -/
theorem C8_products_dedup_check :
    getProducts (.obj props8w) = .ok ["SMACK"] ∧ List.Nodup ["SMACK"] :=
  ⟨rfl, (C8_products_dedup (.obj props8w) ["SMACK"] rfl).1⟩

end StoreLocator
